import Mathlib

/-!
Verification of the process-orchestration core of the `puppeteer` harness
(`src/puppeteer/src/puppeteer/{port,process_manager,harness}.py`) against its
natural-language specification.

The Python modules are shallowly embedded: socket/OS effects are abstracted
into boolean oracles (`canBind`, `inUse`, `exited`, `sentinel`), process-table
effects into an explicit `World` record, and file-system effects into explicit
event traces, while the control flow of each embedded function follows the
Python source line by line.
-/

namespace Puppeteer

/-! ## Port allocation (`port.py`)

`can_bind_port(port)` opens a socket and tries to bind it; its outcome at
probe time is abstracted as an oracle `canBind : Nat → Bool`.  (The source's
`can_bind_port` binds the wildcard address and ignores the `host` argument of
`find_available_port`, so the oracle is a function of the port alone.) -/

/-- The acceptance test of `find_available_port`'s loop body: both the
candidate port and the fixed secondary port `port + 8` must be bindable. -/
def pairBindable (canBind : Nat → Bool) (port : Nat) : Bool :=
  canBind port && canBind (port + 8)

/-- The scan loop of `find_available_port`: try `port, port+1, …` for `fuel`
attempts, returning the first candidate whose pair is bindable. -/
def findFrom (canBind : Nat → Bool) (port : Nat) : Nat → Option Nat
  | 0 => none
  | fuel + 1 =>
    if pairBindable canBind port then some port
    else findFrom canBind (port + 1) fuel

/-- `find_available_port(host, start_port, max_attempts)`.  `Except.error`
models the `RuntimeError`; its payload `(start_port, start_port + max_attempts)`
carries the two numbers interpolated into the error message
`"No available port found in range {start_port}-{start_port + max_attempts}"`. -/
def find_available_port (canBind : Nat → Bool) (start_port max_attempts : Nat) :
    Except (Nat × Nat) Nat :=
  match findFrom canBind start_port max_attempts with
  | some p => .ok p
  | none => .error (start_port, start_port + max_attempts)

/-- Bind oracle of the spec's concrete scenario: ports 17171 and 17179 are
held by another listener (unbindable), everything else is bindable. -/
def exampleBind (p : Nat) : Bool :=
  !(p == 17171 || p == 17179)

/-! Characterisation lemmas for the scan loop. -/

theorem findFrom_eq_some (canBind : Nat → Bool) :
    ∀ (fuel port p : Nat),
      findFrom canBind port fuel = some p ↔
        port ≤ p ∧ p < port + fuel ∧ pairBindable canBind p = true ∧
          ∀ q, port ≤ q → q < p → pairBindable canBind q = false := by
  intro fuel
  induction fuel with
  | zero =>
    intro port p
    simp only [findFrom]
    constructor
    · intro h; cases h
    · rintro ⟨h1, h2, -⟩; omega
  | succ n ih =>
    intro port p
    simp only [findFrom]
    by_cases hb : pairBindable canBind port = true
    · rw [if_pos hb]
      constructor
      · intro h
        cases h
        refine ⟨le_refl _, by omega, hb, ?_⟩
        intro q hq1 hq2; omega
      · rintro ⟨h1, h2, h3, h4⟩
        have : port = p := by
          by_contra hne
          have hlt : port < p := lt_of_le_of_ne h1 hne
          have := h4 port (le_refl _) hlt
          rw [hb] at this; cases this
        rw [this]
    · rw [if_neg hb]
      rw [ih (port + 1) p]
      constructor
      · rintro ⟨h1, h2, h3, h4⟩
        refine ⟨by omega, by omega, h3, ?_⟩
        intro q hq1 hq2
        rcases Nat.eq_or_lt_of_le hq1 with heq | hlt
        · rw [← heq]
          exact Bool.not_eq_true _ ▸ (by simpa using hb)
        · exact h4 q (by omega) hq2
      · rintro ⟨h1, h2, h3, h4⟩
        have hne : port ≠ p := by
          intro heq; rw [heq] at hb; exact hb h3
        refine ⟨by omega, by omega, h3, ?_⟩
        intro q hq1 hq2
        exact h4 q (by omega) hq2

theorem findFrom_eq_none (canBind : Nat → Bool) :
    ∀ (fuel port : Nat),
      findFrom canBind port fuel = none ↔
        ∀ i, i < fuel → pairBindable canBind (port + i) = false := by
  intro fuel
  induction fuel with
  | zero =>
    intro port
    simp [findFrom]
  | succ n ih =>
    intro port
    simp only [findFrom]
    by_cases hb : pairBindable canBind port = true
    · rw [if_pos hb]
      constructor
      · intro h; cases h
      · intro h
        have := h 0 (by omega)
        simp only [Nat.add_zero] at this
        rw [hb] at this; cases this
    · rw [if_neg hb]
      rw [ih (port + 1)]
      constructor
      · intro h i hi
        cases i with
        | zero =>
          simpa using Bool.not_eq_true _ ▸ (by simpa using hb)
        | succ j =>
          have := h j (by omega)
          simpa [Nat.add_assoc, Nat.add_comm 1 j] using this
      · intro h i hi
        have := h (i + 1) (by omega)
        simpa [Nat.add_assoc, Nat.add_comm 1 i] using this

/-- **C1.** `find_available_port` scans the `max_attempts` candidate ports
`s, s+1, …, s+n-1` in order and returns the first candidate `p` such that both
`p` and the secondary port `p + 8` are bindable at probe time; if no candidate
in the scanned window qualifies it raises a capacity error whose message
describes the scanned range (payload `(s, s + n)`).  In the spec's concrete
scenario — 17171 and 17179 unbindable, 17172 and 17180 bindable —
`find_available_port("localhost", 17171)` (default budget 100) returns 17172. -/
theorem c1_find_available_port_first_fit :
    (∀ (canBind : Nat → Bool) (s n p : Nat),
      (find_available_port canBind s n = .ok p ↔
        s ≤ p ∧ p < s + n ∧ pairBindable canBind p = true ∧
          ∀ q, s ≤ q → q < p → pairBindable canBind q = false) ∧
      (find_available_port canBind s n = .error (s, s + n) ↔
        ∀ i, i < n → pairBindable canBind (s + i) = false)) ∧
    find_available_port exampleBind 17171 100 = .ok 17172 := by
  constructor
  · intro canBind s n p
    constructor
    · unfold find_available_port
      cases hf : findFrom canBind s n with
      | none =>
        simp only []
        constructor
        · intro h; cases h
        · intro h
          have := (findFrom_eq_some canBind n s p).mpr h
          rw [hf] at this; cases this
      | some q =>
        simp only []
        constructor
        · intro h
          cases h
          exact (findFrom_eq_some canBind n s p).mp hf
        · intro h
          have := (findFrom_eq_some canBind n s p).mpr h
          rw [hf] at this
          cases this
          rfl
    · unfold find_available_port
      cases hf : findFrom canBind s n with
      | none =>
        simp only []
        constructor
        · intro _
          exact (findFrom_eq_none canBind n s).mp hf
        · intro _; trivial
      | some q =>
        simp only []
        constructor
        · intro h; cases h
        · intro h
          have := (findFrom_eq_none canBind n s).mpr h
          rw [hf] at this; cases this
  · rfl

/-! ## Readiness gates (`port.py:wait_for_port`, `harness.py:_wait_for_observer_table`)

Both gates are polling loops.  Time is discretised into poll iterations (one
per sleep interval); `timeout` becomes the number of poll iterations in the
budget.  The environment at iteration `k` is abstracted by oracles:
`inUse k` — is the server port connectable at iteration `k`;
`exited k` — has the awaited process already exited at iteration `k`
(`proc.poll() is not None`); `sentinel k` — does the observer log exist and
contain the `"AI Harness: waiting for"` marker at iteration `k`. -/

/-- Loop of `wait_for_port`, also counting the number of `is_port_in_use`
probes performed, so that "waits out the remaining timeout" is observable.
The source checks the port, returns `True` on success, sleeps, and on
deadline expiry returns `False` — it has no access to any process handle and
no raise on timeout. -/
def waitForPortAux (inUse : Nat → Bool) : Nat → Nat → Bool × Nat
  | _, 0 => (false, 0)
  | k, fuel + 1 =>
    if inUse k then (true, 1)
    else
      let r := waitForPortAux inUse (k + 1) fuel
      (r.1, r.2 + 1)

/-- `wait_for_port(host, port, timeout)`: result and number of polls. -/
def wait_for_port (inUse : Nat → Bool) (timeout : Nat) : Bool × Nat :=
  waitForPortAux inUse 0 timeout

/-- Outcome of the log-based gate: normal return, the early-death
`RuntimeError`, or the deadline `TimeoutError`. -/
inductive GateResult
  | ready
  | earlyDeath
  | timedOut
deriving DecidableEq

/-- Loop of `_wait_for_observer_table`: each iteration first checks
`proc.poll() is not None` (raising the early-death error), then checks the
log for the sentinel (returning), else sleeps and repeats; an expired
deadline raises the timeout error. -/
def waitObsAux (exited sentinel : Nat → Bool) : Nat → Nat → GateResult
  | _, 0 => .timedOut
  | k, fuel + 1 =>
    if exited k then .earlyDeath
    else if sentinel k then .ready
    else waitObsAux exited sentinel (k + 1) fuel

/-- `_wait_for_observer_table(log_path, proc, timeout)`. -/
def wait_for_observer_table (exited sentinel : Nat → Bool) (timeout : Nat) :
    GateResult :=
  waitObsAux exited sentinel 0 timeout

theorem waitForPortAux_never (fuel : Nat) :
    ∀ k, waitForPortAux (fun _ => false) k fuel = (false, fuel) := by
  induction fuel with
  | zero => intro k; rfl
  | succ n ih =>
    intro k
    simp only [waitForPortAux, if_neg (Bool.false_ne_true), ih (k + 1)]

theorem waitObsAux_earlyDeath (exited sentinel : Nat → Bool) :
    ∀ (fuel j k : Nat), j ≤ k → k < j + fuel →
      (∀ i, j ≤ i → i < k → exited i = false ∧ sentinel i = false) →
      exited k = true →
      waitObsAux exited sentinel j fuel = .earlyDeath := by
  intro fuel
  induction fuel with
  | zero => intro j k h1 h2; omega
  | succ n ih =>
    intro j k h1 h2 hquiet hex
    simp only [waitObsAux]
    rcases Nat.eq_or_lt_of_le h1 with heq | hlt
    · rw [← heq] at hex
      rw [if_pos hex]
    · have hj := hquiet j (le_refl _) hlt
      rw [if_neg (by simp [hj.1]), if_neg (by simp [hj.2])]
      exact ih (j + 1) k hlt (by omega) (fun i hi1 hi2 => hquiet i (by omega) hi2) hex

theorem waitObsAux_timedOut (exited sentinel : Nat → Bool) :
    ∀ (fuel j : Nat),
      (∀ i, j ≤ i → i < j + fuel → exited i = false ∧ sentinel i = false) →
      waitObsAux exited sentinel j fuel = .timedOut := by
  intro fuel
  induction fuel with
  | zero => intro j _; rfl
  | succ n ih =>
    intro j hquiet
    have hj := hquiet j (le_refl _) (by omega)
    simp only [waitObsAux]
    rw [if_neg (by simp [hj.1]), if_neg (by simp [hj.2])]
    exact ih (j + 1) (fun i hi1 hi2 => hquiet i (by omega) (by omega))

/-- **C2 counterexample.** The port-based gate does not fail fast on early
process death and does not raise on timeout: with a 5-poll budget and the
port never connectable (as when the awaited server died before binding), it
performs all 5 polls — the full timeout budget — and then returns the value
`False` rather than raising any error.  (Structurally, `wait_for_port` takes
no process handle at all, so no poll iteration can check process exit.) -/
theorem c2_counterexample :
    wait_for_port (fun _ => false) 5 = (false, 5) := by
  rfl

/-- **C2 (amended).** Only the log-based gate (`_wait_for_observer_table`)
checks on every poll whether the awaited process has already exited, raising
the early-death error immediately (at the first poll that observes the exit)
instead of waiting out the remaining timeout, and raises a timeout error when
the budget elapses without the sentinel; the port-based gate
(`wait_for_port`) performs no liveness check — when the port never becomes
connectable it spends its entire poll budget and reports failure by
returning `False` (its caller prints an error), raising nothing. -/
theorem c2_gate_contracts :
    (∀ (exited sentinel : Nat → Bool) (t k : Nat),
      k < t → (∀ i, i < k → exited i = false ∧ sentinel i = false) →
      exited k = true →
      wait_for_observer_table exited sentinel t = .earlyDeath) ∧
    (∀ (exited sentinel : Nat → Bool) (t : Nat),
      (∀ i, i < t → exited i = false ∧ sentinel i = false) →
      wait_for_observer_table exited sentinel t = .timedOut) ∧
    (∀ t : Nat, wait_for_port (fun _ => false) t = (false, t)) := by
  refine ⟨?_, ?_, ?_⟩
  · intro exited sentinel t k hk hquiet hex
    exact waitObsAux_earlyDeath exited sentinel t 0 k (Nat.zero_le _) (by omega)
      (fun i _ hi => hquiet i hi) hex
  · intro exited sentinel t hquiet
    exact waitObsAux_timedOut exited sentinel t 0
      (fun i _ hi => hquiet i (by omega))
  · intro t
    exact waitForPortAux_never t 0

/-- **C2 witness.** The amended contracts at concrete inputs: a process dead
from the first poll makes the log gate fail early; a quiet run times out; the
port gate with an unreachable port returns `(false, 4)` after 4 polls. -/
theorem c2_gate_contracts_witness :
    wait_for_observer_table (fun _ => true) (fun _ => false) 3 = .earlyDeath ∧
    wait_for_observer_table (fun _ => false) (fun _ => false) 3 = .timedOut ∧
    wait_for_port (fun _ => false) 4 = (false, 4) :=
  ⟨c2_gate_contracts.1 (fun _ => true) (fun _ => false) 3 0 (by decide)
      (fun i hi => absurd hi (by omega)) rfl,
   c2_gate_contracts.2.1 (fun _ => false) (fun _ => false) 3
      (fun i _ => ⟨rfl, rfl⟩),
   c2_gate_contracts.2.2 4⟩

/-- **C10.** In `_wait_for_observer_table` the liveness check takes
precedence over the sentinel check: if the observer process has already
exited at the first poll, the gate raises the early-death error even when
the readiness sentinel is present in the log at every instant — it never
returns success once the process is dead. -/
theorem c10_liveness_precedes_sentinel (exited sentinel : Nat → Bool)
    (t : Nat) (hsent : ∀ k, sentinel k = true) (hex : exited 0 = true)
    (ht : 0 < t) :
    wait_for_observer_table exited sentinel t = .earlyDeath := by
  cases t with
  | zero => omega
  | succ n =>
    show waitObsAux exited sentinel 0 (n + 1) = .earlyDeath
    simp only [waitObsAux]
    rw [if_pos hex]

/-- **C10 witness.** With the sentinel always present and the process dead
from the start, the gate reports early death. -/
theorem c10_liveness_precedes_sentinel_witness :
    wait_for_observer_table (fun _ => true) (fun _ => true) 5 = .earlyDeath :=
  c10_liveness_precedes_sentinel (fun _ => true) (fun _ => true) 5
    (fun _ => rfl) rfl (by decide)

/-! ## Process manager state (`process_manager.py`)

The OS process table is abstracted as a `World`: the list of currently alive
pids and a snapshot `desc` of `psutil`'s recursive-children enumeration
(`parent.children(recursive=True)`).  `kill_tree(pid)` terminates the
children and the parent and, after the 3-second grace period, force-kills
whatever of them is still alive, so its net guaranteed effect on the process
table is: `pid` and all its descendants are no longer alive.  If `pid` does
not exist, `psutil.Process(pid)` raises `NoSuchProcess`, which `kill_tree`
swallows, leaving the world unchanged. -/

structure World where
  alive : List Nat
  desc : Nat → List Nat

/-- Effect of `kill_tree(pid)` on the process table. -/
def killTree (w : World) (pid : Nat) : World :=
  if pid ∈ w.alive then
    { w with alive := w.alive.filter (fun q => decide (¬(q = pid ∨ q ∈ w.desc pid))) }
  else w

/-- The mutable fields of a `ProcessManager` together with the Recovery
File: `_processes` (tracked pids), the one-shot `_cleaned_up` flag, and
whether the PID file currently exists on disk. -/
structure PMState where
  processes : List Nat
  cleanedUp : Bool
  pidFile : Bool

structure SysState where
  pm : PMState
  world : World

/-- `ProcessManager.cleanup()`.  The body runs under `self._lock`, so
concurrent invocations (signal handler, normal control flow, the `atexit`
finalizer) are serialised and any schedule is equivalent to some sequence of
the calls; the lock-protected body is modelled as one atomic step.  It
returns the new state and whether this invocation performed the real
kill-and-clear pass (`False` when the `_cleaned_up` flag short-circuits). -/
def cleanup (s : SysState) : SysState × Bool :=
  if s.pm.cleanedUp then (s, false)
  else
    let w := s.pm.processes.foldl
      (fun w p => if p ∈ w.alive then killTree w p else w) s.world
    (⟨{ processes := [], cleanedUp := true, pidFile := false }, w⟩, true)

/-- `n` sequential invocations of `cleanup()`, returning the final state and
how many of the invocations performed the real pass. -/
def runCleanups : Nat → SysState → SysState × Nat
  | 0, s => (s, 0)
  | n + 1, s =>
    let r := cleanup s
    let rest := runCleanups n r.1
    (rest.1, (if r.2 then 1 else 0) + rest.2)

theorem cleanup_sets_flag (s : SysState) :
    (cleanup s).1.pm.cleanedUp = true := by
  unfold cleanup
  by_cases h : s.pm.cleanedUp
  · rw [if_pos h]; exact h
  · rw [if_neg h]

theorem cleanup_after_cleaned (s : SysState) (h : s.pm.cleanedUp = true) :
    cleanup s = (s, false) := by
  unfold cleanup
  rw [if_pos h]

theorem runCleanups_after_cleaned (n : Nat) :
    ∀ (s : SysState), s.pm.cleanedUp = true → runCleanups n s = (s, 0) := by
  induction n with
  | zero => intro s _; rfl
  | succ m ih =>
    intro s h
    simp only [runCleanups, cleanup_after_cleaned s h, ih s h]
    rfl

/-- **C3.** `cleanup()` is idempotent: starting from a manager that has not
yet cleaned up, among any number `n + 1` of sequential invocations (and,
because the body runs under the manager's lock, any concurrent schedule is
equivalent to such a sequence) exactly one — the first — performs the real
kill-and-clear pass, and every later invocation leaves the state exactly as
the first call left it and raises no error (it returns normally with no
pass). -/
theorem c3_cleanup_idempotent (s : SysState) (n : Nat)
    (h : s.pm.cleanedUp = false) :
    (runCleanups (n + 1) s).2 = 1 ∧
    (runCleanups (n + 1) s).1 = (cleanup s).1 := by
  have hflag : (cleanup s).1.pm.cleanedUp = true := cleanup_sets_flag s
  have hpass : (cleanup s).2 = true := by
    unfold cleanup
    rw [if_neg (by simp [h])]
  simp only [runCleanups, runCleanups_after_cleaned n (cleanup s).1 hflag, hpass]
  refine ⟨?_, ?_⟩ <;> trivial

/-- **C3 witness.** A fresh manager tracking pids 5 and 7 in a world where
both are alive: three sequential `cleanup()` calls perform exactly one real
pass and the state after all three equals the state after the first. -/
theorem c3_cleanup_idempotent_witness :
    (runCleanups 3
      ⟨⟨[5, 7], false, true⟩, ⟨[5, 7], fun _ => []⟩⟩).2 = 1 ∧
    (runCleanups 3
      ⟨⟨[5, 7], false, true⟩, ⟨[5, 7], fun _ => []⟩⟩).1 =
      (cleanup ⟨⟨[5, 7], false, true⟩, ⟨[5, 7], fun _ => []⟩⟩).1 :=
  c3_cleanup_idempotent ⟨⟨[5, 7], false, true⟩, ⟨[5, 7], fun _ => []⟩⟩ 2 rfl

theorem killTree_alive_subset (w : World) (pid q : Nat)
    (h : q ∈ (killTree w pid).alive) : q ∈ w.alive := by
  unfold killTree at h
  by_cases hc : pid ∈ w.alive
  · rw [if_pos hc] at h
    exact (List.mem_filter.mp h).1
  · rw [if_neg hc] at h
    exact h

theorem killTree_kills (w : World) (pid : Nat) (h : pid ∈ w.alive) :
    pid ∉ (killTree w pid).alive := by
  unfold killTree
  rw [if_pos h]
  intro hcon
  have := (List.mem_filter.mp hcon).2
  simp at this

theorem foldKill_alive_subset (l : List Nat) :
    ∀ (w : World) (q : Nat),
      q ∈ (l.foldl (fun w p => if p ∈ w.alive then killTree w p else w) w).alive →
      q ∈ w.alive := by
  induction l with
  | nil => intro w q h; exact h
  | cons p rest ih =>
    intro w q h
    simp only [List.foldl_cons] at h
    by_cases hc : p ∈ w.alive
    · rw [if_pos hc] at h
      exact killTree_alive_subset w p q (ih (killTree w p) q h)
    · rw [if_neg hc] at h
      exact ih w q h

theorem foldKill_dead (l : List Nat) :
    ∀ (w : World) (p : Nat), p ∈ l →
      p ∉ (l.foldl (fun w p => if p ∈ w.alive then killTree w p else w) w).alive := by
  induction l with
  | nil => intro w p h; cases h
  | cons a rest ih =>
    intro w p hmem
    simp only [List.foldl_cons]
    rcases List.mem_cons.mp hmem with heq | htail
    · subst heq
      by_cases hc : p ∈ w.alive
      · rw [if_pos hc]
        intro hcon
        exact killTree_kills w p hc (foldKill_alive_subset rest (killTree w p) p hcon)
      · rw [if_neg hc]
        intro hcon
        exact hc (foldKill_alive_subset rest w p hcon)
    · by_cases hc : a ∈ w.alive
      · rw [if_pos hc]
        exact ih (killTree w a) p htail
      · rw [if_neg hc]
        exact ih w p htail

/-- **C4.** After the first `cleanup()` call returns (on a manager that had
not yet cleaned up), every pid that was tracked is no longer alive — each
still-running tracked process had its tree killed, with force-kill after the
grace period guaranteeing termination — the in-memory tracked-process list
is empty, and the Recovery File (PID file) no longer exists. -/
theorem c4_cleanup_postcondition (s : SysState) (h : s.pm.cleanedUp = false) :
    (∀ p, p ∈ s.pm.processes → p ∉ (cleanup s).1.world.alive) ∧
    (cleanup s).1.pm.processes = [] ∧
    (cleanup s).1.pm.pidFile = false := by
  unfold cleanup
  rw [if_neg (by simp [h])]
  exact ⟨fun p hp => foldKill_dead s.pm.processes s.world p hp, rfl, rfl⟩

/-- **C4 witness.** A fresh manager tracking pids 5 and 7, where 5 is alive
with descendant 6 and 7 has already exited: after `cleanup()` both tracked
pids are dead, the list is empty and the PID file is gone. -/
theorem c4_cleanup_postcondition_witness :
    (∀ p, p ∈ [5, 7] →
      p ∉ (cleanup ⟨⟨[5, 7], false, true⟩,
        ⟨[5, 6], fun p => if p == 5 then [6] else []⟩⟩).1.world.alive) ∧
    (cleanup ⟨⟨[5, 7], false, true⟩,
      ⟨[5, 6], fun p => if p == 5 then [6] else []⟩⟩).1.pm.processes = [] ∧
    (cleanup ⟨⟨[5, 7], false, true⟩,
      ⟨[5, 6], fun p => if p == 5 then [6] else []⟩⟩).1.pm.pidFile = false :=
  c4_cleanup_postcondition
    ⟨⟨[5, 7], false, true⟩, ⟨[5, 6], fun p => if p == 5 then [6] else []⟩⟩ rfl

/-! ## Environment merge of `start_process` (`process_manager.py:168-205`)

Python dictionaries are modelled extensionally as lookup functions
`String → Option String`; `d[k] = v` is a pointwise update and `d.update(e)`
folds the update over the override items. -/

/-- A process environment as a lookup table (`os.environ` and friends). -/
abbrev EnvTable := String → Option String

/-- `d[k] = v`. -/
def envSet (d : EnvTable) (k v : String) : EnvTable :=
  fun q => if q = k then some v else d q

/-- `d.update(e)` for the item list `e` of the override dict. -/
def envUpdate (d : EnvTable) (e : List (String × String)) : EnvTable :=
  e.foldl (fun acc kv => envSet acc kv.1 kv.2) d

/-- The environment `start_process` hands to `subprocess.Popen`:
`merged_env = os.environ.copy()`, then `merged_env["XMAGE_AI_HARNESS"] = "1"`,
then `if env: merged_env.update(env)`.  (For `env = some []` Python's
truthiness skips the update, but an empty update is the identity, so the
model applies it uniformly.) -/
def merged_env (osEnv : EnvTable) (env : Option (List (String × String))) :
    EnvTable :=
  let m := envSet osEnv "XMAGE_AI_HARNESS" "1"
  match env with
  | none => m
  | some e => envUpdate m e

/-- **C5 counterexample.** The claim fails: `env_overrides` is merged *after*
the marker injection (`merged_env.update(env)` runs last), so an override
dict that itself binds `XMAGE_AI_HARNESS` wins.  With overrides
`{"XMAGE_AI_HARNESS": "0"}` the spawned process's environment maps the
marker to `"0"`, not `"1"`. -/
theorem c5_counterexample :
    merged_env (fun _ => none) (some [("XMAGE_AI_HARNESS", "0")])
        "XMAGE_AI_HARNESS" = some "0" ∧
    some "0" ≠ some "1" := by
  exact ⟨rfl, by decide⟩

theorem envUpdate_lookup_of_not_key (k : String) :
    ∀ (e : List (String × String)) (d : EnvTable),
      (∀ kv, kv ∈ e → kv.1 ≠ k) → envUpdate d e k = d k := by
  intro e
  induction e with
  | nil => intro d _; rfl
  | cons kv rest ih =>
    intro d hk
    show envUpdate (envSet d kv.1 kv.2) rest k = d k
    rw [ih (envSet d kv.1 kv.2) (fun kv' h => hk kv' (List.mem_cons_of_mem _ h))]
    unfold envSet
    rw [if_neg]
    intro h
    exact hk kv (List.mem_cons_self _ _) h.symm

/-- **C5 (amended).** For every call to `start_process`, whenever the
supplied `env_overrides` does not itself bind the marker key (which no
caller in the repository does with a value other than `"1"`), the spawned
process's environment maps `XMAGE_AI_HARNESS` to `"1"`; when the overrides
do bind the marker key, the override's value takes precedence because
`merged_env.update(env)` runs after the marker injection. -/
theorem c5_marker_injected (osEnv : EnvTable)
    (env : Option (List (String × String)))
    (h : ∀ e, env = some e → ∀ kv, kv ∈ e → kv.1 ≠ "XMAGE_AI_HARNESS") :
    merged_env osEnv env "XMAGE_AI_HARNESS" = some "1" := by
  unfold merged_env
  cases env with
  | none =>
    show envSet osEnv "XMAGE_AI_HARNESS" "1" "XMAGE_AI_HARNESS" = some "1"
    unfold envSet
    rw [if_pos rfl]
  | some e =>
    show envUpdate (envSet osEnv "XMAGE_AI_HARNESS" "1") e "XMAGE_AI_HARNESS" = some "1"
    rw [envUpdate_lookup_of_not_key "XMAGE_AI_HARNESS" e _ (h e rfl)]
    unfold envSet
    rw [if_pos rfl]

/-- **C5 witness.** The overrides `start_server` passes (marker-free apart
from re-asserting the marker itself is absent here: take the
`MAVEN_OPTS`-style overrides) leave the marker at `"1"`. -/
theorem c5_marker_injected_witness :
    merged_env (fun _ => none) (some [("MAVEN_OPTS", "-Xmx512m"),
        ("PYTHONUNBUFFERED", "1")]) "XMAGE_AI_HARNESS" = some "1" :=
  c5_marker_injected (fun _ => none)
    (some [("MAVEN_OPTS", "-Xmx512m"), ("PYTHONUNBUFFERED", "1")])
    (fun e he kv hkv => by
      cases he
      simp only [List.mem_cons, List.not_mem_nil, or_false] at hkv
      rcases hkv with h | h
      · rw [h]; decide
      · rw [h]; decide)

/-! ## Orphan recovery, recovery-file strategy (`process_manager.py:69-92`)

What `cleanup_orphans` can observe about a pid from the Recovery File:
`psutil.Process(pid)` raises `NoSuchProcess`, or `proc.environ()` raises
`AccessDenied`, or the environment is readable and is an association list.
Every exceptional path in the loop body is caught and the entry silently
skipped, so the embedding is a total function returning the list of pids
`kill_tree` was invoked on; the `finally` clause deletes the file whether
the read loop succeeded or not. -/

inductive Probe
  | noProc
  | accessDenied
  | envMap (env : List (String × String))
deriving DecidableEq

/-- `env.get("XMAGE_AI_HARNESS")` on a readable environment. -/
def envMarker (e : List (String × String)) : Option String :=
  (e.find? (fun kv => kv.1 == "XMAGE_AI_HARNESS")).map (fun kv => kv.2)

/-- Recovery-file state seen by strategy 1: does the file exist, did the
read succeed (`OSError` otherwise), and its lines. -/
structure OrphanFs where
  fileExists : Bool
  readOk : Bool
  lines : List String

/-- `int(line.strip())` for the digit-only lines the harness itself writes
(`ValueError` on anything unparsable, modelled as `none`). -/
def parsePid (line : String) : Option Nat :=
  line.trim.toNat?

/-- The pids strategy 1 kills: each parsable line whose process exists and
whose readable environment carries `XMAGE_AI_HARNESS == "1"`. -/
def strat1Killed (fs : OrphanFs) (probe : Nat → Probe) : List Nat :=
  if fs.fileExists && fs.readOk then
    fs.lines.filterMap (fun line =>
      match parsePid line with
      | none => none
      | some pid =>
        match probe pid with
        | .envMap e => if envMarker e = some "1" then some pid else none
        | _ => none)
  else []

/-- Whether strategy 1 deletes the Recovery File: the `finally` block
unlinks it whenever it existed, read success or not. -/
def strat1FileDeleted (fs : OrphanFs) : Bool :=
  fs.fileExists

theorem strat1_line_spec (probe : Nat → Probe) (line : String) (pid : Nat) :
    (match parsePid line with
      | none => none
      | some pid =>
        match probe pid with
        | .envMap e => if envMarker e = some "1" then some pid else none
        | _ => none) = some pid ↔
      parsePid line = some pid ∧
        ∃ e, probe pid = .envMap e ∧ envMarker e = some "1" := by
  cases hp : parsePid line with
  | none =>
    simp only []
    constructor
    · intro h; cases h
    · rintro ⟨h, -⟩; cases h
  | some q =>
    simp only []
    cases hq : probe q with
    | noProc =>
      simp only []
      constructor
      · intro h; cases h
      · rintro ⟨h1, e, h2, -⟩
        cases Option.some.inj h1
        rw [hq] at h2; cases h2
    | accessDenied =>
      simp only []
      constructor
      · intro h; cases h
      · rintro ⟨h1, e, h2, -⟩
        cases Option.some.inj h1
        rw [hq] at h2; cases h2
    | envMap e =>
      simp only []
      by_cases hm : envMarker e = some "1"
      · rw [if_pos hm]
        constructor
        · intro h
          cases Option.some.inj h
          exact ⟨rfl, e, hq, hm⟩
        · rintro ⟨h1, -⟩
          cases Option.some.inj h1
          rfl
      · rw [if_neg hm]
        constructor
        · intro h; cases h
        · rintro ⟨h1, e', h2, h3⟩
          cases Option.some.inj h1
          rw [hq] at h2
          cases Probe.envMap.inj h2
          exact absurd h3 hm

/-- **C6.** In the recovery-file strategy of `cleanup_orphans`, when the
Recovery File exists and is readable and no listed process hits the
`AccessDenied` path, a pid read from the file is killed if and only if a
process with that id currently exists and its live environment carries
`XMAGE_AI_HARNESS = "1"`; ids of no-longer-existing and of unmarked
processes are silently skipped (the embedding is total — every exception in
the loop body is caught), and the Recovery File is deleted when the strategy
finishes, read success or failure alike. -/
theorem c6_orphan_strategy (fs : OrphanFs) (probe : Nat → Probe)
    (hex : fs.fileExists = true) (hro : fs.readOk = true)
    (hacc : ∀ line ∈ fs.lines, ∀ pid, parsePid line = some pid →
      probe pid ≠ .accessDenied) :
    (∀ pid, pid ∈ strat1Killed fs probe ↔
      (∃ line ∈ fs.lines, parsePid line = some pid) ∧
        ∃ e, probe pid = .envMap e ∧ envMarker e = some "1") ∧
    strat1FileDeleted fs = true ∧
    (∀ ro, strat1FileDeleted ⟨fs.fileExists, ro, fs.lines⟩ = true) := by
  refine ⟨?_, hex, fun _ => hex⟩
  intro pid
  unfold strat1Killed
  rw [if_pos (by rw [hex, hro]; rfl)]
  rw [List.mem_filterMap]
  constructor
  · rintro ⟨line, hline, hsome⟩
    rcases (strat1_line_spec probe line pid).mp hsome with ⟨h1, h2⟩
    exact ⟨⟨line, hline, h1⟩, h2⟩
  · rintro ⟨⟨line, hline, h1⟩, h2⟩
    exact ⟨line, hline, (strat1_line_spec probe line pid).mpr ⟨h1, h2⟩⟩

/-- **C6 witness.** The spec's scenario: a Recovery File listing pid 101
(alive and marker-tagged) and pid 999 (no longer existing).  101 is killed,
999 is skipped, and the file is deleted. -/
theorem c6_orphan_strategy_witness :
    (101 ∈ strat1Killed ⟨true, true, ["101", "999"]⟩
        (fun p => if p = 101 then .envMap [("XMAGE_AI_HARNESS", "1")] else .noProc) ↔
      (∃ line ∈ ["101", "999"], parsePid line = some 101) ∧
        ∃ e, (fun p => if p = 101 then Probe.envMap [("XMAGE_AI_HARNESS", "1")] else Probe.noProc) 101 = .envMap e ∧
          envMarker e = some "1") ∧
    strat1FileDeleted ⟨true, true, ["101", "999"]⟩ = true := by
  have h := c6_orphan_strategy ⟨true, true, ["101", "999"]⟩
    (fun p => if p = 101 then .envMap [("XMAGE_AI_HARNESS", "1")] else .noProc)
    rfl rfl
    (fun line _ pid _ => by
      intro hc
      have hc' : (if pid = 101 then Probe.envMap [("XMAGE_AI_HARNESS", "1")]
          else Probe.noProc) = Probe.accessDenied := hc
      by_cases hp : pid = 101
      · rw [if_pos hp] at hc'; cases hc'
      · rw [if_neg hp] at hc'; cases hc')
  exact ⟨h.1 101, h.2.1⟩

/-! ## Recovery File rewrite (`process_manager.py:158-166`)

`_write_pid_file` is embedded as the trace of file-system operations it
performs; the contents a concurrent reader of the PID-file path would see
after each operation are derived from the trace. -/

inductive FsOp
  | mkdirParents (dir : String)
  | openTrunc (path : String)
  | writeLine (path : String) (pid : Nat)
  | closeFile (path : String)
  | renameFile (src dst : String)
deriving DecidableEq

/-- `PID_FILE_PATH`. -/
def pidFilePath : String := ".context/ai-harness-logs/harness.pids"

/-- The file-system operations of `_write_pid_file`:
`self._pid_file.parent.mkdir(parents=True, exist_ok=True)`, then
`open(self._pid_file, "w")` (truncating the file in place), one
`f.write(f"{proc.pid}\n")` per tracked process, and the implicit close.
No temporary path and no rename appear anywhere in the function. -/
def write_pid_file_trace (pids : List Nat) : List FsOp :=
  [FsOp.mkdirParents ".context/ai-harness-logs", FsOp.openTrunc pidFilePath] ++
    pids.map (fun p => FsOp.writeLine pidFilePath p) ++
    [FsOp.closeFile pidFilePath]

def isRename : FsOp → Bool
  | .renameFile _ _ => true
  | _ => false

def hasRename (tr : List FsOp) : Bool :=
  tr.any isRename

/-- Contents of the file at the PID-file path (`none` = absent) after one
operation.  A rename onto the path would atomically install unknown-but-
complete contents; it is mapped to `none` here solely so the function is
total — no rename occurs in any trace this development produces. -/
def applyFsOp (st : Option (List Nat)) (op : FsOp) : Option (List Nat) :=
  match op with
  | .openTrunc p => if p = pidFilePath then some [] else st
  | .writeLine p n =>
    if p = pidFilePath then
      match st with
      | some l => some (l ++ [n])
      | none => none
    else st
  | .renameFile _ dst => if dst = pidFilePath then none else st
  | _ => st

/-- Every intermediate state of the PID file a concurrent reader could
observe while the trace executes, including the initial one. -/
def observableStates (init : Option (List Nat)) (tr : List FsOp) :
    List (Option (List Nat)) :=
  tr.scanl applyFsOp init

/-- **C7 counterexample.** The claim fails: `_write_pid_file` performs no
write-to-temp-and-rename.  Rewriting the file from contents `[10, 20]` to
pids `[30, 40]`, its trace contains no rename, and a concurrent reader can
observe the state `[30]` — which is neither the old contents nor the new —
i.e. a partially written file. -/
theorem c7_counterexample :
    hasRename (write_pid_file_trace [30, 40]) = false ∧
    some [30] ∈ observableStates (some [10, 20]) (write_pid_file_trace [30, 40]) ∧
    some [30] ≠ some [10, 20] ∧ some [30] ≠ some [30, 40] := by
  refine ⟨rfl, ?_, by decide, by decide⟩
  show some [30] ∈ observableStates (some [10, 20]) (write_pid_file_trace [30, 40])
  decide

/-- **C7 (amended).** Every rewrite of the Recovery File by
`_write_pid_file` truncates the file at its final path and writes the pid
lines sequentially in place: the operation trace contains no rename, and
the empty (just-truncated) file is always one of the states a concurrent
reader of the path can observe, so the rewrite is not atomic. -/
theorem c7_write_in_place (pids : List Nat) (init : Option (List Nat)) :
    hasRename (write_pid_file_trace pids) = false ∧
    some [] ∈ observableStates init (write_pid_file_trace pids) := by
  constructor
  · unfold hasRename write_pid_file_trace
    simp only [List.any_append, List.any_cons, List.any_nil, List.any_map]
    simp [isRename, Function.comp]
  · unfold observableStates write_pid_file_trace
    simp only [List.cons_append, List.nil_append, List.scanl]
    right
    right
    show some [] ∈ List.scanl applyFsOp
      (applyFsOp (applyFsOp init (FsOp.mkdirParents ".context/ai-harness-logs"))
        (FsOp.openTrunc pidFilePath))
      (List.map (fun p => FsOp.writeLine pidFilePath p) pids ++ [FsOp.closeFile pidFilePath])
    have h2 : applyFsOp (applyFsOp init (FsOp.mkdirParents ".context/ai-harness-logs"))
        (FsOp.openTrunc pidFilePath) = some [] := by
      simp [applyFsOp]
    rw [h2]
    cases hl : List.map (fun p => FsOp.writeLine pidFilePath p) pids ++
        [FsOp.closeFile pidFilePath] with
    | nil => simp [List.scanl]
    | cons a rest => simp [List.scanl]

/-! ## Signal order of `kill_tree` (`process_manager.py:18-56`)

`kill_tree` is embedded as the trace of signalling operations it performs,
in source order: the optional `os.killpg(child_pgid, SIGTERM)` (taken when
the target's process group differs from the caller's), one `terminate()` per
enumerated descendant, `terminate()` on the parent, the grace-period
`wait_procs`, and one `kill()` per process still alive afterwards.  A group
SIGTERM is delivered to every member of that group, the target included. -/

inductive KEvent
  | sigtermGroup (g : Nat)
  | term (p : Nat)
  | waitGrace
  | kill (p : Nat)
deriving DecidableEq

/-- Trace of `kill_tree(pid)`.  `targetExists` is whether `psutil.Process(pid)`
succeeds (otherwise `NoSuchProcess` is swallowed and nothing happens);
`myPgid` is the caller's process group (`os.getpgrp()`); `pgidOf` the group
of each process; `ds` the snapshot of `parent.children(recursive=True)`;
`stillAlive` who survives the grace period and gets force-killed. -/
def kill_tree_trace (targetExists : Bool) (myPgid : Nat) (pgidOf : Nat → Nat)
    (pid : Nat) (ds : List Nat) (stillAlive : Nat → Bool) : List KEvent :=
  if targetExists then
    (if pgidOf pid ≠ myPgid then [KEvent.sigtermGroup (pgidOf pid)] else []) ++
      ds.map KEvent.term ++ [KEvent.term pid, KEvent.waitGrace] ++
      ((ds ++ [pid]).filter stillAlive).map KEvent.kill
  else []

/-- Does event `e` deliver a graceful termination request (SIGTERM) to
process `p`?  A group SIGTERM reaches every member of the group. -/
def gracefulReaches (pgidOf : Nat → Nat) (e : KEvent) (p : Nat) : Bool :=
  match e with
  | .sigtermGroup g => pgidOf p == g
  | .term q => q == p
  | _ => false

/-- Does event `e` deliver any termination request (SIGTERM or SIGKILL) to
process `p`? -/
def anyReaches (pgidOf : Nat → Nat) (e : KEvent) (p : Nat) : Bool :=
  match e with
  | .sigtermGroup g => pgidOf p == g
  | .term q => q == p
  | .kill q => q == p
  | .waitGrace => false

/-- Indices of the trace events satisfying a reach predicate. -/
def reachIdxs (f : KEvent → Bool) (tr : List KEvent) : List Nat :=
  (List.range tr.length).filter (fun i =>
    match tr[i]? with
    | some e => f e
    | none => false)

/-- The claim's ordering property: every descendant receives a graceful
termination request strictly before any termination request reaches the
parent `pid` itself. -/
def parentLast (pgidOf : Nat → Nat) (tr : List KEvent) (pid : Nat)
    (ds : List Nat) : Prop :=
  ∀ d ∈ ds, ∃ i ∈ reachIdxs (fun e => gracefulReaches pgidOf e d) tr,
    ∀ j ∈ reachIdxs (fun e => anyReaches pgidOf e pid) tr, i < j

/-- **C8 counterexample.** The claim fails for a target outside the caller's
process group: killing pid 100 (its own group leader, group 100, caller's
group 1) with one descendant 101 in the same group, the very first trace
event is `os.killpg(100, SIGTERM)`, which reaches pid 100 itself at index 0
— not strictly after the request to descendant 101 (delivered by the same
group signal at the same index, with `terminate()` on 101 only at index 1). -/
theorem c8_counterexample :
    ¬ parentLast (fun _ => 100)
      (kill_tree_trace true 1 (fun _ => 100) 100 [101] (fun _ => false))
      100 [101] := by
  unfold parentLast
  decide

/-- **C8 (amended).** For every target that exists and lives in the caller's
own process group — which is the case for every process spawned by
`start_process`, since it deliberately keeps children in the supervisor's
group — `kill_tree(pid)` sends the graceful termination request to every
enumerated descendant strictly before any termination request (graceful or
forced) reaches `pid` itself; when the target is in a different group, an
initial group-wide SIGTERM reaches the parent first. -/
theorem c8_parent_last_same_group (myPgid : Nat) (pgidOf : Nat → Nat)
    (pid : Nat) (ds : List Nat) (stillAlive : Nat → Bool)
    (hgrp : pgidOf pid = myPgid) (hpid : pid ∉ ds) :
    parentLast pgidOf
      (kill_tree_trace true myPgid pgidOf pid ds stillAlive) pid ds := by
  intro d hd
  set tr := kill_tree_trace true myPgid pgidOf pid ds stillAlive with htr
  have htr' : tr = ds.map KEvent.term ++ ([KEvent.term pid, KEvent.waitGrace] ++
      ((ds ++ [pid]).filter stillAlive).map KEvent.kill) := by
    rw [htr]
    unfold kill_tree_trace
    rw [if_pos rfl, if_neg (by simp [hgrp])]
    simp
  rcases List.getElem_of_mem hd with ⟨i0, hi0len, hi0⟩
  have hlen : ds.length ≤ tr.length := by
    rw [htr']
    simp only [List.length_append, List.length_map]
    omega
  have htri0 : tr[i0]? = some (KEvent.term d) := by
    rw [htr', List.getElem?_append_left (by simpa using hi0len)]
    rw [List.getElem?_map]
    rw [List.getElem?_eq_getElem hi0len, hi0]
    rfl
  refine ⟨i0, ?_, ?_⟩
  · unfold reachIdxs
    rw [List.mem_filter]
    constructor
    · rw [List.mem_range]
      omega
    · rw [htri0]
      show gracefulReaches pgidOf (KEvent.term d) d = true
      unfold gracefulReaches
      simp
  · intro j hj
    unfold reachIdxs at hj
    rw [List.mem_filter] at hj
    rcases hj with ⟨-, hj2⟩
    by_contra hcon
    push_neg at hcon
    -- hcon : j ≤ i0 < ds.length, so tr[j] is a terminate of some descendant
    have hjlt : j < ds.length := by omega
    have htrj : tr[j]? = some (KEvent.term ds[j]) := by
      rw [htr', List.getElem?_append_left (by simpa using hjlt)]
      rw [List.getElem?_map]
      rw [List.getElem?_eq_getElem hjlt]
      rfl
    rw [htrj] at hj2
    have : anyReaches pgidOf (KEvent.term ds[j]) pid = true := hj2
    unfold anyReaches at this
    have heq : ds[j] = pid := by simpa using this
    exact hpid (heq ▸ List.getElem_mem hjlt)

/-- **C8 witness.** Killing pid 100 (in the caller's group 1) with
descendants 101 and 102, where 102 survives the grace period: every
descendant's SIGTERM precedes every request to 100. -/
theorem c8_parent_last_same_group_witness :
    parentLast (fun _ => 1)
      (kill_tree_trace true 1 (fun _ => 1) 100 [101, 102] (fun p => p == 102))
      100 [101, 102] :=
  c8_parent_last_same_group 1 (fun _ => 1) 100 [101, 102] (fun p => p == 102)
    rfl (by decide)

/-! ## Orchestrator sequencing (`harness.py:main`)

The orchestration steps of `main` after the player-config and compile
preamble are embedded as an event trace.  `portReady` is the outcome of
`wait_for_port` on the server port; `logGate` the outcome of
`_wait_for_observer_table` (a failed gate raises, so control jumps to the
`finally` cleanup).  Worker starts appear in source order: sleepwalkers,
chatterboxes, pilots, potatoes, stallers, legacy skeletons. -/

inductive OEvent
  | allocatePort
  | startServer
  | gatePortOk
  | gatePortFailed
  | startObserver
  | gateLogOk
  | gateLogFailed
  | startWorker (name : String)
  | awaitObserver
  | runCleanup
deriving DecidableEq

/-- The per-role player name lists of the loaded `Config`. -/
structure HarnessConfig where
  sleepwalkers : List String
  chatterboxes : List String
  pilots : List String
  potatoes : List String
  stallers : List String
  skeletons : List String

/-- `headless_count` in `main`. -/
def headlessCount (c : HarnessConfig) : Nat :=
  c.sleepwalkers.length + c.chatterboxes.length + c.pilots.length +
    c.potatoes.length + c.stallers.length + c.skeletons.length

/-- The worker start events, in the order `main` issues them. -/
def workerStarts (c : HarnessConfig) : List OEvent :=
  (c.sleepwalkers ++ c.chatterboxes ++ c.pilots ++ c.potatoes ++
    c.stallers ++ c.skeletons).map OEvent.startWorker

/-- Orchestration trace of `main`: find the port, start the server, gate on
the port (`return 1` on failure, with the `finally` cleanup), start the
observer client, and — only when headless clients are configured — gate on
the observer log (its exception also lands in the `finally` cleanup) before
starting every worker; then await the observer and clean up. -/
def mainTrace (c : HarnessConfig) (portReady : Bool) (logGate : GateResult) :
    List OEvent :=
  [OEvent.allocatePort, OEvent.startServer] ++
    (if portReady then
      [OEvent.gatePortOk, OEvent.startObserver] ++
        (if 0 < headlessCount c then
          match logGate with
          | .ready =>
            [OEvent.gateLogOk] ++ workerStarts c ++
              [OEvent.awaitObserver, OEvent.runCleanup]
          | _ => [OEvent.gateLogFailed, OEvent.runCleanup]
        else [OEvent.awaitObserver, OEvent.runCleanup])
    else [OEvent.gatePortFailed, OEvent.runCleanup])

def isWorkerStart : OEvent → Bool
  | .startWorker _ => true
  | _ => false

theorem no_worker_of_mem_aux (l : List OEvent) (w : String)
    (h : ∀ e ∈ l, isWorkerStart e = false) (i : Nat) :
    l[i]? ≠ some (OEvent.startWorker w) := by
  intro hc
  have hw := h _ (List.getElem?_mem hc)
  simp [isWorkerStart] at hw

/-- **C9.** In `main`'s orchestration sequence, no worker/headless client
process (sleepwalker, chatterbox, pilot, potato, staller, or legacy
skeleton) is ever started before the observer's readiness sentinel has been
observed: every `startWorker` event in the trace is strictly preceded by the
successful return of the log-based readiness gate. -/
theorem c9_workers_after_log_gate (c : HarnessConfig) (portReady : Bool)
    (logGate : GateResult) (i : Nat) (w : String)
    (h : (mainTrace c portReady logGate)[i]? = some (OEvent.startWorker w)) :
    ∃ j, j < i ∧ (mainTrace c portReady logGate)[j]? = some OEvent.gateLogOk := by
  by_cases hp : portReady
  · by_cases hh : 0 < headlessCount c
    · cases hg : logGate with
      | ready =>
        have htr : mainTrace c portReady logGate =
            [OEvent.allocatePort, OEvent.startServer, OEvent.gatePortOk,
              OEvent.startObserver, OEvent.gateLogOk] ++
              (workerStarts c ++ [OEvent.awaitObserver, OEvent.runCleanup]) := by
          unfold mainTrace
          rw [if_pos hp, if_pos hh, hg]
          simp
        rw [htr] at h
        by_cases hi : i < 5
        · exfalso
          have : ([OEvent.allocatePort, OEvent.startServer, OEvent.gatePortOk,
              OEvent.startObserver, OEvent.gateLogOk] : List OEvent)[i]? =
              some (OEvent.startWorker w) := by
            rw [← List.getElem?_append_left (by simpa using hi)]
            exact h
          exact no_worker_of_mem_aux _ w (by decide) i this
        · refine ⟨4, by omega, ?_⟩
          rw [← hg, htr]
          rw [List.getElem?_append_left (by simp)]
          rfl
      | earlyDeath =>
        exfalso
        have htr : mainTrace c portReady logGate =
            [OEvent.allocatePort, OEvent.startServer, OEvent.gatePortOk,
              OEvent.startObserver, OEvent.gateLogFailed, OEvent.runCleanup] := by
          unfold mainTrace
          rw [if_pos hp, if_pos hh, hg]
          rfl
        rw [htr] at h
        exact no_worker_of_mem_aux _ w (by decide) i h
      | timedOut =>
        exfalso
        have htr : mainTrace c portReady logGate =
            [OEvent.allocatePort, OEvent.startServer, OEvent.gatePortOk,
              OEvent.startObserver, OEvent.gateLogFailed, OEvent.runCleanup] := by
          unfold mainTrace
          rw [if_pos hp, if_pos hh, hg]
          rfl
        rw [htr] at h
        exact no_worker_of_mem_aux _ w (by decide) i h
    · exfalso
      have htr : mainTrace c portReady logGate =
          [OEvent.allocatePort, OEvent.startServer, OEvent.gatePortOk,
            OEvent.startObserver, OEvent.awaitObserver, OEvent.runCleanup] := by
        unfold mainTrace
        rw [if_pos hp, if_neg hh]
        rfl
      rw [htr] at h
      exact no_worker_of_mem_aux _ w (by decide) i h
  · exfalso
    have htr : mainTrace c portReady logGate =
        [OEvent.allocatePort, OEvent.startServer, OEvent.gatePortFailed,
          OEvent.runCleanup] := by
      unfold mainTrace
      rw [if_neg hp]
      rfl
    rw [htr] at h
    exact no_worker_of_mem_aux _ w (by decide) i h

/-- **C9 witness.** A run with one sleepwalker: the worker start at index 5
is preceded by the successful log gate (at index 4). -/
theorem c9_workers_after_log_gate_witness :
    ∃ j, j < 5 ∧
      (mainTrace ⟨["alice"], [], [], [], [], []⟩ true GateResult.ready)[j]? =
        some OEvent.gateLogOk :=
  c9_workers_after_log_gate ⟨["alice"], [], [], [], [], []⟩ true
    GateResult.ready 5 "alice" rfl

end Puppeteer
